import Mathlib

/-!
Shallow embedding of the examplebot referral-aware account core.

Source files embedded:
  - src/bot/db/models.py        (User / Transaction / Usage rows)
  - src/bot/db/requests_db.py   (UserRepository, TransactionRepository, UsageRepository)
  - src/bot/utils/helpers.py    (get_or_create_user, process_referral_payment)

Modelling choices:
  - The SQLAlchemy session / database is a `DBState`: three row lists plus
    auto-increment counters for the primary keys.
  - `datetime` values are integer UTC timestamps in seconds;
    `timedelta(days=d)` is `d * 86400` seconds.  Operations that call
    `datetime.utcnow()` in Python take an explicit `now : Int` argument.
  - Python `float` payment amounts are modelled as exact rationals (`Rat`);
    Python `int(x)` truncation toward zero is `pyTrunc`.
  - `generate_user_hash` truncates a SHA-256 digest (a `hashlib` library
    call, external to the repository); the development is parameterised over
    the hash function `hashFn : Int → String`.
  - Each repository static method `f(session, ...)` becomes
    `f : DBState → ... → Option row × DBState` (the Option is the
    `None`-on-missing-user result; the second component is the session state
    after the call, unchanged when the lookup fails).
-/

def daySeconds : Int := 86400

/-- Python `timedelta(days=d)` in seconds. -/
def timedeltaDays (d : Int) : Int := d * daySeconds

/-- Python `int(q)`: truncation toward zero.  Written with divisions of
nonnegative numerators/denominators only, so the result does not depend on
the rounding convention of `Int` division. -/
def pyTrunc (q : Rat) : Int :=
  if q < 0 then -((-q).num / ((-q).den : Int)) else q.num / (q.den : Int)

/-- A row of the `users` table (src/bot/db/models.py, class User). -/
structure DBUser where
  id : Int
  tg_id : Int
  username : Option String
  registered_at : Int
  user_hash : String
  invited_count : Int
  invited_by_hash : Option String
  coins : Int
  referral_earnings : Int
  referral_percentage : Int
  subscription_until : Int
deriving Repr, DecidableEq

/-- A row of the `transactions` table (src/bot/db/models.py, class Transaction). -/
structure DBTransaction where
  id : Int
  user_id : Int
  amount : Int
  description : String
  created_at : Int
deriving Repr, DecidableEq

/-- A row of the `usage` table (src/bot/db/models.py, class Usage). -/
structure DBUsage where
  id : Int
  user_id : Int
  coins_used : Int
  used_at : Int
deriving Repr, DecidableEq

/-- The database session state: the three tables plus the auto-increment
primary-key counters. -/
structure DBState where
  users : List DBUser
  transactions : List DBTransaction
  usages : List DBUsage
  nextUserId : Int
  nextTransactionId : Int
  nextUsageId : Int
deriving Repr, DecidableEq

/-- Embeds `UserRepository.get_user_by_id`: `select(User).where(User.id == user_id)`,
first match or `None`. -/
def get_user_by_id (s : DBState) (user_id : Int) : Option DBUser :=
  s.users.find? (fun u => u.id == user_id)

/-- Embeds `UserRepository.get_user_by_tg_id`. -/
def get_user_by_tg_id (s : DBState) (tg_id : Int) : Option DBUser :=
  s.users.find? (fun u => u.tg_id == tg_id)

/-- Embeds `UserRepository.get_user_by_hash`. -/
def get_user_by_hash (s : DBState) (user_hash : String) : Option DBUser :=
  s.users.find? (fun u => u.user_hash == user_hash)

/-- Commit an in-place mutation `f` of the user row keyed by `user_id`. -/
def updateUserById (s : DBState) (user_id : Int) (f : DBUser → DBUser) : DBState :=
  { s with users := s.users.map (fun u => if u.id == user_id then f u else u) }

/-- Embeds `UserRepository.create_user`: builds a `User` row with
`subscription_until = datetime.utcnow() + timedelta(days=3)`, adds it to the
session and commits.  `coins` has Python default 2 (passed explicitly here). -/
def create_user (s : DBState) (now : Int) (tg_id : Int) (user_hash : String)
    (username : Option String) (invited_by_hash : Option String) (coins : Int) :
    DBUser × DBState :=
  let u : DBUser :=
    { id := s.nextUserId
      tg_id := tg_id
      username := username
      registered_at := now
      user_hash := user_hash
      invited_count := 0
      invited_by_hash := invited_by_hash
      coins := coins
      referral_earnings := 0
      referral_percentage := 5
      subscription_until := now + timedeltaDays 3 }
  (u, { s with users := s.users ++ [u], nextUserId := s.nextUserId + 1 })

/-- Embeds `UserRepository.add_coins`: `user.coins += amount`, commit, refresh. -/
def add_coins (s : DBState) (user_id : Int) (amount : Int) :
    Option DBUser × DBState :=
  match get_user_by_id s user_id with
  | none => (none, s)
  | some u =>
      (some { u with coins := u.coins + amount },
       updateUserById s user_id (fun v => { v with coins := v.coins + amount }))

/-- Embeds `UserRepository.add_referral_earnings`: `user.referral_earnings += amount`. -/
def add_referral_earnings (s : DBState) (user_id : Int) (amount : Int) :
    Option DBUser × DBState :=
  match get_user_by_id s user_id with
  | none => (none, s)
  | some u =>
      (some { u with referral_earnings := u.referral_earnings + amount },
       updateUserById s user_id
         (fun v => { v with referral_earnings := v.referral_earnings + amount }))

/-- Embeds `UserRepository.update_referral_percentage`. -/
def update_referral_percentage (s : DBState) (user_id : Int) (percentage : Int) :
    Option DBUser × DBState :=
  match get_user_by_id s user_id with
  | none => (none, s)
  | some u =>
      (some { u with referral_percentage := percentage },
       updateUserById s user_id (fun v => { v with referral_percentage := percentage }))

/-- Embeds `UserRepository.subtract_coins`: `user.coins -= amount`. -/
def subtract_coins (s : DBState) (user_id : Int) (amount : Int) :
    Option DBUser × DBState :=
  match get_user_by_id s user_id with
  | none => (none, s)
  | some u =>
      (some { u with coins := u.coins - amount },
       updateUserById s user_id (fun v => { v with coins := v.coins - amount }))

/-- Embeds `UserRepository.increment_invited_count`: `user.invited_count += 1`. -/
def increment_invited_count (s : DBState) (user_id : Int) :
    Option DBUser × DBState :=
  match get_user_by_id s user_id with
  | none => (none, s)
  | some u =>
      (some { u with invited_count := u.invited_count + 1 },
       updateUserById s user_id (fun v => { v with invited_count := v.invited_count + 1 }))

/-- Embeds `UserRepository.update_subscription`:
`user.subscription_until = datetime.utcnow() + timedelta(days=days)`. -/
def update_subscription (s : DBState) (user_id : Int) (now : Int) (days : Int) :
    Option DBUser × DBState :=
  match get_user_by_id s user_id with
  | none => (none, s)
  | some u =>
      (some { u with subscription_until := now + timedeltaDays days },
       updateUserById s user_id
         (fun v => { v with subscription_until := now + timedeltaDays days }))

/-- Embeds `UserRepository.extend_subscription`:
`user.subscription_until = user.subscription_until + timedelta(days=days)`. -/
def extend_subscription (s : DBState) (user_id : Int) (days : Int) :
    Option DBUser × DBState :=
  match get_user_by_id s user_id with
  | none => (none, s)
  | some u =>
      (some { u with subscription_until := u.subscription_until + timedeltaDays days },
       updateUserById s user_id
         (fun v => { v with subscription_until := v.subscription_until + timedeltaDays days }))

/-- Embeds `UserRepository.delete_user`. -/
def delete_user (s : DBState) (user_id : Int) : Bool × DBState :=
  match get_user_by_id s user_id with
  | none => (false, s)
  | some u =>
      (true,
       { s with
          users := s.users.filter (fun v => !(v.id == user_id))
          transactions := s.transactions.filter (fun t => !(t.user_id == u.id))
          usages := s.usages.filter (fun r => !(r.user_id == u.id)) })

/-- A Python value passed as a keyword-argument value to `update_user`.
Only the value shapes that can actually be stored in a mapped `User` column
are modelled (ints, strings, `None`). -/
inductive PyValue where
  | intV (n : Int)
  | strV (s : String)
  | noneV
deriving Repr, DecidableEq

/-- Python `hasattr(user, key)` restricted to the mapped columns of the
`User` model (src/bot/db/models.py). -/
def userHasAttr (key : String) : Bool :=
  ["id", "tg_id", "username", "registered_at", "user_hash", "invited_count",
   "invited_by_hash", "coins", "referral_earnings", "referral_percentage",
   "subscription_until"].contains key

/-- Python `setattr(user, key, value)` for the mapped `User` columns, for
well-typed values; any other key leaves the row unchanged (such a key never
reaches `setattr` in `update_user` because of the `hasattr` guard). -/
def setUserAttr (u : DBUser) (key : String) (v : PyValue) : DBUser :=
  match key, v with
  | "id", .intV n => { u with id := n }
  | "tg_id", .intV n => { u with tg_id := n }
  | "username", .strV x => { u with username := some x }
  | "username", .noneV => { u with username := none }
  | "registered_at", .intV n => { u with registered_at := n }
  | "user_hash", .strV x => { u with user_hash := x }
  | "invited_count", .intV n => { u with invited_count := n }
  | "invited_by_hash", .strV x => { u with invited_by_hash := some x }
  | "invited_by_hash", .noneV => { u with invited_by_hash := none }
  | "coins", .intV n => { u with coins := n }
  | "referral_earnings", .intV n => { u with referral_earnings := n }
  | "referral_percentage", .intV n => { u with referral_percentage := n }
  | "subscription_until", .intV n => { u with subscription_until := n }
  | _, _ => u

/-- The `for key, value in kwargs.items(): if hasattr(user, key): setattr(...)`
loop of `UserRepository.update_user`. -/
def applyKwargs (u : DBUser) (kwargs : List (String × PyValue)) : DBUser :=
  kwargs.foldl
    (fun acc kv => if userHasAttr kv.1 then setUserAttr acc kv.1 kv.2 else acc) u

/-- Embeds `UserRepository.update_user(session, user_id, **kwargs)`. -/
def update_user (s : DBState) (user_id : Int) (kwargs : List (String × PyValue)) :
    Option DBUser × DBState :=
  match get_user_by_id s user_id with
  | none => (none, s)
  | some u =>
      (some (applyKwargs u kwargs),
       updateUserById s user_id (fun v => applyKwargs v kwargs))

/-- Embeds `TransactionRepository.create_transaction`. -/
def create_transaction (s : DBState) (now : Int) (user_id : Int) (amount : Int)
    (description : String) : DBTransaction × DBState :=
  let t : DBTransaction :=
    { id := s.nextTransactionId
      user_id := user_id
      amount := amount
      description := description
      created_at := now }
  (t, { s with transactions := s.transactions ++ [t],
                nextTransactionId := s.nextTransactionId + 1 })

/-- Embeds `TransactionRepository.get_user_balance`: sum of the `amount` column over
the user's transactions. -/
def get_user_balance (s : DBState) (user_id : Int) : Int :=
  ((s.transactions.filter (fun t => t.user_id == user_id)).map
      (fun t => t.amount)).sum

/-- Embeds `UsageRepository.create_usage`. -/
def create_usage (s : DBState) (now : Int) (user_id : Int) (coins_used : Int) :
    DBUsage × DBState :=
  let r : DBUsage :=
    { id := s.nextUsageId, user_id := user_id, coins_used := coins_used,
      used_at := now }
  (r, { s with usages := s.usages ++ [r], nextUsageId := s.nextUsageId + 1 })

/-- The dict returned by `UsageRepository.get_usage_stats`. -/
structure UsageStats where
  period_days : Int
  total_usages : Nat
  total_coins_used : Int
  average_per_usage : Rat
deriving Repr, DecidableEq

/-- Embeds `UsageRepository.get_usage_stats(session, user_id, days)`:
records with `Usage.user_id == user_id and Usage.used_at >= utcnow() - days`;
the average is `sum/len` (Python float division, exact here) guarded by the
list-truthiness check `if usage_records`. -/
def get_usage_stats (s : DBState) (user_id : Int) (days : Int) (now : Int) :
    UsageStats :=
  let start_date := now - timedeltaDays days
  let usage_records :=
    s.usages.filter (fun r => r.user_id == user_id && start_date ≤ r.used_at)
  { period_days := days
    total_usages := usage_records.length
    total_coins_used := (usage_records.map (fun r => r.coins_used)).sum
    average_per_usage :=
      if usage_records.isEmpty then 0
      else ((((usage_records.map (fun r => r.coins_used)).sum : Int) : Rat)
              / (usage_records.length : Rat)) }

/-- Embeds `REFERRAL_BONUS` (src/bot/utils/helpers.py line 35). -/
def REFERRAL_BONUS : Int := 1

/-- The dict returned by `get_or_create_user`. -/
structure GocDict where
  id : Int
  tg_id : Int
  username : Option String
  coins : Int
  user_hash : String
  invited_count : Int
  subscription_until : Int
  invited_by_hash : Option String
deriving Repr, DecidableEq

/-- The dict literal at the end of `get_or_create_user`. -/
def userToDict (u : DBUser) : GocDict :=
  { id := u.id
    tg_id := u.tg_id
    username := u.username
    coins := u.coins
    user_hash := u.user_hash
    invited_count := u.invited_count
    subscription_until := u.subscription_until
    invited_by_hash := u.invited_by_hash }

/-- The inviter-resolution block of `get_or_create_user`:
`if invited_by_hash:` (string truthiness — `None` and `""` are falsy), look
the inviter up by hash, and drop it again when `inviter.user_hash` equals the
new user's own hash (self-referral guard). -/
def resolveInviter (s : DBState) (own_hash : String)
    (invited_by_hash : Option String) : Option DBUser :=
  match invited_by_hash with
  | none => none
  | some h =>
      if h = "" then none
      else
        match get_user_by_hash s h with
        | none => none
        | some inv => if inv.user_hash = own_hash then none else some inv

/-- Embeds `get_or_create_user(session, tg_id, username, invited_by_hash)`
(src/bot/utils/helpers.py).  `hashFn` stands for `generate_user_hash`
(a SHA-256 `hashlib` call, external to the repository). -/
def get_or_create_user (hashFn : Int → String) (s : DBState) (now : Int)
    (tg_id : Int) (username : Option String) (invited_by_hash : Option String) :
    GocDict × DBState :=
  match get_user_by_tg_id s tg_id with
  | some u => (userToDict u, s)
  | none =>
      let user_hash := hashFn tg_id
      let inviter := resolveInviter s user_hash invited_by_hash
      let created := create_user s now tg_id user_hash username
        (inviter.map (fun inv => inv.user_hash)) 2
      match inviter with
      | none => (userToDict created.1, created.2)
      | some inv =>
          let s2 := (increment_invited_count created.2 inv.id).2
          let s3 := (add_coins s2 inv.id REFERRAL_BONUS).2
          (userToDict created.1, s3)

/-- The dict returned by `process_referral_payment`.  The Python failure
dicts carry only `success` and `error`; the remaining fields are absent there
and are modelled as their zero/none defaults. -/
structure PaymentResult where
  success : Bool
  error : Option String
  user_coins_added : Int
  user_days_added : Int
  referrer_bonus : Int
  referrer_id : Option Int
deriving Repr, DecidableEq

/-- Embeds a `{"success": False, "error": msg}` dict. -/
def failResult (msg : String) : PaymentResult :=
  { success := false, error := some msg, user_coins_added := 0,
    user_days_added := 0, referrer_bonus := 0, referrer_id := none }

/-- Embeds `process_referral_payment(session, user_id, coins_to_add, days_to_add,
payment_amount)` (src/bot/utils/helpers.py): add coins, extend the
subscription, then — when the payer has a truthy `invited_by_hash` that
resolves — credit the referrer `int(payment_amount * referral_percentage / 100)`
via `add_referral_earnings`. -/
def process_referral_payment (s : DBState) (user_id : Int) (coins_to_add : Int)
    (days_to_add : Int) (payment_amount : Rat) : PaymentResult × DBState :=
  match get_user_by_id s user_id with
  | none => (failResult "User not found", s)
  | some user =>
      let step1 := add_coins s user_id coins_to_add
      match step1.1 with
      | none => (failResult "Failed to add coins to user", step1.2)
      | some _ =>
          let step2 := extend_subscription step1.2 user_id days_to_add
          match step2.1 with
          | none => (failResult "Failed to extend user subscription", step2.2)
          | some _ =>
              let base : PaymentResult :=
                { success := true, error := none,
                  user_coins_added := coins_to_add,
                  user_days_added := days_to_add,
                  referrer_bonus := 0, referrer_id := none }
              match user.invited_by_hash with
              | none => (base, step2.2)
              | some h =>
                  if h = "" then (base, step2.2)
                  else
                    match get_user_by_hash step2.2 h with
                    | none => (base, step2.2)
                    | some referrer =>
                        let bonus_amount := pyTrunc
                          (payment_amount * (referrer.referral_percentage : Rat) / 100)
                        let step3 := add_referral_earnings step2.2 referrer.id
                          bonus_amount
                        match step3.1 with
                        | none => (base, step3.2)
                        | some _ =>
                            ({ base with referrer_bonus := bonus_amount,
                                         referrer_id := some referrer.id },
                             step3.2)

/-- The session state after steps 2 and 3 of `process_referral_payment`
(coins credited, subscription extended), before any referrer credit. -/
def paidState (s : DBState) (uid c d : Int) : DBState :=
  updateUserById
    (updateUserById s uid (fun v => { v with coins := v.coins + c }))
    uid (fun v => { v with subscription_until := v.subscription_until + timedeltaDays d })

/-- Concrete user for witnesses. -/
def sampleUserA : DBUser :=
  { id := 1, tg_id := 7, username := some "alice", registered_at := 0,
    user_hash := "hA", invited_count := 0, invited_by_hash := none,
    coins := 2, referral_earnings := 0, referral_percentage := 5,
    subscription_until := 259200 }

/-- Concrete one-user session for witnesses. -/
def sampleState : DBState :=
  { users := [sampleUserA], transactions := [], usages := [],
    nextUserId := 2, nextTransactionId := 1, nextUsageId := 1 }

/-- Concrete empty session for witnesses. -/
def emptyState : DBState :=
  { users := [], transactions := [], usages := [],
    nextUserId := 1, nextTransactionId := 1, nextUsageId := 1 }

/-- A concrete stand-in for `generate_user_hash` in witnesses. -/
def sampleHashFn : Int → String :=
  fun n => if n == 7 then "hA" else if n == 8 then "hB" else "hX"

/-- Session whose transaction ledger initially agrees with the live
`coins` field of `sampleUserA`. -/
def ledgerState : DBState :=
  { users := [sampleUserA],
    transactions := [{ id := 1, user_id := 1, amount := 2,
                       description := "initial", created_at := 0 }],
    usages := [], nextUserId := 2, nextTransactionId := 2, nextUsageId := 1 }

/-- Variant of `sampleUserA` with a subscription expiry far in the future. -/
def farFutureUser : DBUser := { sampleUserA with subscription_until := 10000000 }

/-- Session containing `farFutureUser`. -/
def farFutureState : DBState := { sampleState with users := [farFutureUser] }

/-- Concrete referrer (5 % referral share) for payment witnesses. -/
def referrerR : DBUser :=
  { id := 1, tg_id := 7, username := some "ref", registered_at := 0,
    user_hash := "hR", invited_count := 1, invited_by_hash := none,
    coins := 3, referral_earnings := 0, referral_percentage := 5,
    subscription_until := 259200 }

/-- Concrete payer invited by `referrerR`. -/
def payerU : DBUser :=
  { id := 2, tg_id := 8, username := some "payer", registered_at := 100,
    user_hash := "hU", invited_count := 0, invited_by_hash := some "hR",
    coins := 2, referral_earnings := 0, referral_percentage := 5,
    subscription_until := 359200 }

/-- Two-user session (referrer and payer) for payment witnesses. -/
def payState : DBState :=
  { users := [referrerR, payerU], transactions := [], usages := [],
    nextUserId := 3, nextTransactionId := 1, nextUsageId := 1 }

/-- A usage record far older than any stats window used in witnesses. -/
def staleUsage : DBUsage := { id := 1, user_id := 1, coins_used := 4, used_at := 0 }

/-- Session whose only usage record lies outside the queried window. -/
def usageState : DBState :=
  { users := [sampleUserA], transactions := [], usages := [staleUsage],
    nextUserId := 2, nextTransactionId := 1, nextUsageId := 2 }

/-! ## Shared lemmas about lookups and keyed updates -/

theorem find_map_comm {α : Type} (p : α → Bool) (g : α → α) (l : List α)
    (hg : ∀ x, p (g x) = p x) : (l.map g).find? p = (l.find? p).map g := by
  induction l with
  | nil => rfl
  | cons a t ih =>
      by_cases h : p a
      · rw [List.map_cons, List.find?_cons_of_pos _ ((hg a).trans h),
          List.find?_cons_of_pos _ h]
        rfl
      · rw [List.map_cons,
          List.find?_cons_of_neg _ (by rw [hg a]; exact h),
          List.find?_cons_of_neg _ h, ih]

theorem find_append_of_none {α : Type} {p : α → Bool} {l1 : List α}
    (l2 : List α) (h : l1.find? p = none) :
    (l1 ++ l2).find? p = l2.find? p := by
  rw [List.find?_append, h, Option.none_or]

theorem find_append_of_some {α : Type} {p : α → Bool} {l1 : List α}
    (l2 : List α) {a : α} (h : l1.find? p = some a) :
    (l1 ++ l2).find? p = some a := by
  rw [List.find?_append, h]; rfl

theorem get_user_by_id_update (s : DBState) (uid w : Int) (f : DBUser → DBUser)
    (hf : ∀ v, (f v).id = v.id) :
    get_user_by_id (updateUserById s uid f) w
      = (get_user_by_id s w).map (fun v => if v.id == uid then f v else v) := by
  unfold get_user_by_id updateUserById
  apply find_map_comm
  intro x
  by_cases h : x.id == uid
  · rw [if_pos h, hf x]
  · rw [if_neg h]

theorem get_user_by_tg_id_update (s : DBState) (uid tg : Int)
    (f : DBUser → DBUser) (hf : ∀ v, (f v).tg_id = v.tg_id) :
    get_user_by_tg_id (updateUserById s uid f) tg
      = (get_user_by_tg_id s tg).map (fun v => if v.id == uid then f v else v) := by
  unfold get_user_by_tg_id updateUserById
  apply find_map_comm
  intro x
  by_cases h : x.id == uid
  · rw [if_pos h, hf x]
  · rw [if_neg h]

theorem get_user_by_hash_update (s : DBState) (uid : Int) (hsh : String)
    (f : DBUser → DBUser) (hf : ∀ v, (f v).user_hash = v.user_hash) :
    get_user_by_hash (updateUserById s uid f) hsh
      = (get_user_by_hash s hsh).map (fun v => if v.id == uid then f v else v) := by
  unfold get_user_by_hash updateUserById
  apply find_map_comm
  intro x
  by_cases h : x.id == uid
  · rw [if_pos h, hf x]
  · rw [if_neg h]

theorem map_if_comp (l : List DBUser) (uid : Int) (f g : DBUser → DBUser)
    (hf : ∀ v, (f v).id = v.id) :
    (l.map (fun v => if v.id == uid then f v else v)).map
        (fun v => if v.id == uid then g v else v)
      = l.map (fun v => if v.id == uid then g (f v) else v) := by
  induction l with
  | nil => rfl
  | cons a t ih =>
      rw [List.map_cons, List.map_cons, List.map_cons, ih]
      by_cases h : a.id == uid
      · rw [if_pos h]
        have : ((f a).id == uid) = true := by rw [hf a]; exact h
        rw [if_pos this, if_pos h]
      · rw [if_neg h, if_neg h, if_neg h]

theorem updateUserById_comp (s : DBState) (uid : Int) (f g : DBUser → DBUser)
    (hf : ∀ v, (f v).id = v.id) :
    updateUserById (updateUserById s uid f) uid g
      = updateUserById s uid (fun v => g (f v)) := by
  unfold updateUserById
  congr 1
  exact map_if_comp s.users uid f g hf

theorem updateUserById_congr (s : DBState) (uid : Int) (f g : DBUser → DBUser)
    (h : ∀ v, f v = g v) : updateUserById s uid f = updateUserById s uid g := by
  unfold updateUserById
  congr 1
  apply List.map_congr_left
  intro a _
  by_cases ha : a.id == uid
  · rw [if_pos ha, if_pos ha, h a]
  · rw [if_neg ha, if_neg ha]

theorem updateUserById_transactions (s : DBState) (uid : Int)
    (f : DBUser → DBUser) :
    (updateUserById s uid f).transactions = s.transactions := rfl

theorem updateUserById_usages (s : DBState) (uid : Int) (f : DBUser → DBUser) :
    (updateUserById s uid f).usages = s.usages := rfl

theorem pyTrunc_eq_floor (q : Rat) (h : 0 ≤ q) : pyTrunc q = ⌊q⌋ := by
  rw [pyTrunc, if_neg (not_lt.mpr h), Rat.floor_def]

/-! ## Claim theorems -/

/-- Claim C8: for every existing user and integer amount, `add_coins` adds exactly
`amount` to the `coins` field and `subtract_coins` subtracts exactly `amount`
from it (both in the returned row and in the stored row); neither operation
enforces a non-negative floor — the formulas hold for arbitrary integer
balances and amounts, so a subtract may drive the balance negative — and
neither ever fails for an existing user. -/
theorem add_subtract_coins_exact (s : DBState) (uid amount : Int) (u : DBUser)
    (hu : get_user_by_id s uid = some u) :
    (add_coins s uid amount).1 = some { u with coins := u.coins + amount }
    ∧ get_user_by_id (add_coins s uid amount).2 uid
        = some { u with coins := u.coins + amount }
    ∧ (subtract_coins s uid amount).1 = some { u with coins := u.coins - amount }
    ∧ get_user_by_id (subtract_coins s uid amount).2 uid
        = some { u with coins := u.coins - amount } := by
  have hu' : s.users.find? (fun v => v.id == uid) = some u := hu
  have hbeq : (u.id == uid) = true := by simpa using List.find?_some hu'
  have hid : u.id = uid := by simpa using hbeq
  refine ⟨?_, ?_, ?_, ?_⟩
  · simp only [add_coins, hu]
  · simp only [add_coins, hu]
    rw [get_user_by_id_update s uid uid
      (fun v => { v with coins := v.coins + amount }) (fun v => rfl), hu]
    simp [hid]
  · simp only [subtract_coins, hu]
  · simp only [subtract_coins, hu]
    rw [get_user_by_id_update s uid uid
      (fun v => { v with coins := v.coins - amount }) (fun v => rfl), hu]
    simp [hid]

/-- Claim C8 witness: on the concrete `sampleState` (balance 2), adding 5 gives 7
and subtracting 5 gives the negative balance -3, with no failure. -/
theorem add_subtract_coins_exact_witness :
    get_user_by_id sampleState 1 = some sampleUserA
    ∧ (add_coins sampleState 1 5).1 = some { sampleUserA with coins := 7 }
    ∧ (subtract_coins sampleState 1 5).1 = some { sampleUserA with coins := -3 } := by
  have h := add_subtract_coins_exact sampleState 1 5 sampleUserA (by decide)
  exact ⟨by decide, by rw [h.1]; decide, by rw [h.2.2.1]; decide⟩

/-- Claim C9: `add_coins` and `subtract_coins` create no Transaction row (the
transaction table and the usage table are untouched), change no User field
other than `coins` (the stored row is exactly the old row with `coins`
updated), and leave the Transaction-sum balance `get_user_balance`
unchanged — so when the live `coins` field agreed with the ledger before the
call, a nonzero mutation makes them diverge. -/
theorem coins_mutations_frame (s : DBState) (uid amount : Int) (u : DBUser)
    (hu : get_user_by_id s uid = some u) :
    (add_coins s uid amount).2.transactions = s.transactions
    ∧ (add_coins s uid amount).2.usages = s.usages
    ∧ get_user_by_id (add_coins s uid amount).2 uid
        = some { u with coins := u.coins + amount }
    ∧ get_user_balance (add_coins s uid amount).2 uid = get_user_balance s uid
    ∧ (subtract_coins s uid amount).2.transactions = s.transactions
    ∧ (subtract_coins s uid amount).2.usages = s.usages
    ∧ get_user_by_id (subtract_coins s uid amount).2 uid
        = some { u with coins := u.coins - amount }
    ∧ get_user_balance (subtract_coins s uid amount).2 uid = get_user_balance s uid
    ∧ (u.coins = get_user_balance s uid → amount ≠ 0 →
        ({ u with coins := u.coins + amount } : DBUser).coins
          ≠ get_user_balance (add_coins s uid amount).2 uid) := by
  have h := add_subtract_coins_exact s uid amount u hu
  have htr : (add_coins s uid amount).2.transactions = s.transactions := by
    simp only [add_coins, hu]
    rfl
  have htr' : (subtract_coins s uid amount).2.transactions = s.transactions := by
    simp only [subtract_coins, hu]
    rfl
  have hbal : get_user_balance (add_coins s uid amount).2 uid
      = get_user_balance s uid := by
    unfold get_user_balance
    rw [htr]
  have hbal' : get_user_balance (subtract_coins s uid amount).2 uid
      = get_user_balance s uid := by
    unfold get_user_balance
    rw [htr']
  refine ⟨htr, ?_, h.2.1, hbal, htr', ?_, h.2.2.2, hbal', ?_⟩
  · simp only [add_coins, hu]
    rfl
  · simp only [subtract_coins, hu]
    rfl
  · intro heq hne
    rw [hbal, ← heq]
    simpa using hne

/-- Claim C9 witness: on `ledgerState` the live balance (2) initially equals the
Transaction-sum balance; after `add_coins 5` no transaction row exists, the
ledger balance is still 2, and the live coins field (7) has diverged. -/
theorem coins_mutations_frame_witness :
    get_user_by_id ledgerState 1 = some sampleUserA
    ∧ sampleUserA.coins = get_user_balance ledgerState 1
    ∧ (add_coins ledgerState 1 5).2.transactions = ledgerState.transactions
    ∧ get_user_balance (add_coins ledgerState 1 5).2 1 = 2
    ∧ ({ sampleUserA with coins := sampleUserA.coins + 5 } : DBUser).coins
        ≠ get_user_balance (add_coins ledgerState 1 5).2 1 := by
  have h := coins_mutations_frame ledgerState 1 5 sampleUserA (by decide)
  refine ⟨by decide, by decide, h.1, ?_, h.2.2.2.2.2.2.2.2 (by decide) (by decide)⟩
  rw [h.2.2.2.1]
  decide

/-- Claim C7: subscription extension is cumulative — extending by `d1` and then by
`d2` produces the same session state as a single extension by `d1 + d2` —
and the extension is applied to the stored expiry (the result is the stored
`subscription_until` plus the delta, with no dependence on the current time,
hence also when the stored expiry is in the past). -/
theorem extend_subscription_cumulative (s : DBState) (uid d1 d2 : Int) :
    (extend_subscription (extend_subscription s uid d1).2 uid d2).2
      = (extend_subscription s uid (d1 + d2)).2
    ∧ (∀ u, get_user_by_id s uid = some u →
        (extend_subscription s uid d1).1
          = some { u with subscription_until :=
              u.subscription_until + timedeltaDays d1 }) := by
  constructor
  · cases hu : get_user_by_id s uid with
    | none => simp only [extend_subscription, hu]
    | some u =>
        have hu' : s.users.find? (fun v => v.id == uid) = some u := hu
        have hid : u.id = uid := by simpa using List.find?_some hu'
        have h1 : get_user_by_id (updateUserById s uid
            (fun v => { v with subscription_until :=
              v.subscription_until + timedeltaDays d1 })) uid
            = some { u with subscription_until :=
                u.subscription_until + timedeltaDays d1 } := by
          rw [get_user_by_id_update s uid uid
            (fun v => { v with subscription_until :=
              v.subscription_until + timedeltaDays d1 }) (fun v => rfl), hu]
          simp [hid]
        simp only [extend_subscription, hu, h1]
        rw [updateUserById_comp s uid
          (fun v => { v with subscription_until :=
            v.subscription_until + timedeltaDays d1 })
          (fun v => { v with subscription_until :=
            v.subscription_until + timedeltaDays d2 }) (fun v => rfl)]
        apply updateUserById_congr
        intro v
        show ({ v with subscription_until :=
            v.subscription_until + timedeltaDays d1 + timedeltaDays d2 } : DBUser) = _
        have harith : v.subscription_until + timedeltaDays d1 + timedeltaDays d2
            = v.subscription_until + timedeltaDays (d1 + d2) := by
          unfold timedeltaDays daySeconds
          ring
        rw [harith]
  · intro u hu
    simp only [extend_subscription, hu]

/-- Claim C7 witness: on the concrete `sampleState`, extending by 4 then by 6 days
equals one extension by 10 days, and a single extension adds exactly
`4 * 86400` seconds to the stored expiry. -/
theorem extend_subscription_cumulative_witness :
    (extend_subscription (extend_subscription sampleState 1 4).2 1 6).2
      = (extend_subscription sampleState 1 (4 + 6)).2
    ∧ (extend_subscription sampleState 1 4).1
      = some { sampleUserA with subscription_until := 259200 + 4 * 86400 } := by
  have h := extend_subscription_cumulative sampleState 1 4 6
  refine ⟨h.1, ?_⟩
  rw [h.2 sampleUserA (by decide)]
  decide

theorem applyKwargs_filter (u : DBUser) (kwargs : List (String × PyValue)) :
    applyKwargs u kwargs
      = applyKwargs u (kwargs.filter (fun kv => userHasAttr kv.1)) := by
  induction kwargs generalizing u with
  | nil => rfl
  | cons kv t ih =>
      by_cases h : userHasAttr kv.1
      · have hl : applyKwargs u (kv :: t) = applyKwargs (setUserAttr u kv.1 kv.2) t := by
          show applyKwargs (if userHasAttr kv.1 then setUserAttr u kv.1 kv.2 else u) t = _
          rw [if_pos h]
        have hr : applyKwargs u (kv :: t.filter (fun kv => userHasAttr kv.1))
            = applyKwargs (setUserAttr u kv.1 kv.2)
                (t.filter (fun kv => userHasAttr kv.1)) := by
          show applyKwargs (if userHasAttr kv.1 then setUserAttr u kv.1 kv.2 else u) _ = _
          rw [if_pos h]
        rw [hl, List.filter_cons, if_pos h, hr]
        exact ih _
      · have hl : applyKwargs u (kv :: t) = applyKwargs u t := by
          show applyKwargs (if userHasAttr kv.1 then setUserAttr u kv.1 kv.2 else u) t = _
          rw [if_neg h]
        rw [hl, List.filter_cons, if_neg h]
        exact ih u

theorem applyKwargs_unknown (u : DBUser) (kwargs : List (String × PyValue))
    (h : ∀ kv ∈ kwargs, userHasAttr kv.1 = false) : applyKwargs u kwargs = u := by
  induction kwargs generalizing u with
  | nil => rfl
  | cons kv t ih =>
      show applyKwargs (if userHasAttr kv.1 then setUserAttr u kv.1 kv.2 else u) t = u
      rw [h kv (List.mem_cons_self kv t)]
      show applyKwargs u t = u
      exact ih u (fun kv' hm => h kv' (List.mem_cons_of_mem _ hm))

/-- Claim C2 counterexample: on `sampleState`, an update containing the unknown
field name `"bogus_field"` does not fail — the call returns a row
(`isSome`) and the accompanying `coins` update is applied — and a key naming
the non-whitelisted column `tg_id` is applied as well, refuting both the
"unknown field names are rejected with an error" part and the
"only the enumerated whitelist" part of the claim. -/
theorem update_user_accepts_unknown_field :
    ((update_user sampleState 1
        [("bogus_field", PyValue.intV 7), ("coins", PyValue.intV 99)]).1).isSome = true
    ∧ (get_user_by_id (update_user sampleState 1
        [("bogus_field", PyValue.intV 7), ("coins", PyValue.intV 99)]).2 1).map
          (fun u => u.coins) = some 99
    ∧ (get_user_by_id (update_user sampleState 1
        [("tg_id", PyValue.intV 999)]).2 1).map (fun u => u.tg_id)
        = some 999 := by decide

/-- Claim C2 amended: `update_user` applies the values of keys naming existing
`User` attributes (any mapped column, not only the seven-field whitelist)
and silently ignores unknown field names instead of rejecting them: for an
existing user the call always succeeds, the result only depends on the
known-key entries of the update, and an update all of whose keys are
unknown leaves the session unchanged. -/
theorem update_user_silently_ignores_unknown (s : DBState) (uid : Int)
    (kwargs : List (String × PyValue)) (u : DBUser)
    (hu : get_user_by_id s uid = some u) :
    (update_user s uid kwargs).1 = some (applyKwargs u kwargs)
    ∧ ((update_user s uid kwargs).1).isSome = true
    ∧ applyKwargs u kwargs
        = applyKwargs u (kwargs.filter (fun kv => userHasAttr kv.1))
    ∧ ((∀ kv ∈ kwargs, userHasAttr kv.1 = false) →
        (update_user s uid kwargs).2 = s) := by
  refine ⟨by simp only [update_user, hu], by simp only [update_user, hu, Option.isSome_some],
    applyKwargs_filter u kwargs, ?_⟩
  intro hall
  simp only [update_user, hu]
  unfold updateUserById
  have hmap : s.users.map (fun v => if v.id == uid then applyKwargs v kwargs else v)
      = s.users.map id := by
    apply List.map_congr_left
    intro a _
    by_cases ha : a.id == uid
    · rw [if_pos ha, applyKwargs_unknown a kwargs hall]
      rfl
    · rw [if_neg ha]
      rfl
  rw [hmap, List.map_id]

/-- Claim C2 amended witness: on `sampleState`, an update whose single key is the
unknown `"ghost"` succeeds and leaves the session exactly as it was. -/
theorem update_user_silently_ignores_unknown_witness :
    ((update_user sampleState 1 [("ghost", PyValue.intV 1)]).1).isSome = true
    ∧ (update_user sampleState 1 [("ghost", PyValue.intV 1)]).2 = sampleState := by
  have h := update_user_silently_ignores_unknown sampleState 1
    [("ghost", PyValue.intV 1)] sampleUserA (by decide)
  exact ⟨h.2.1, h.2.2.2 (by decide)⟩

/-- Claim C3 counterexample: `update_subscription` (the reset operation named by
the claim) moves `subscription_until` backward: for the stored expiry
10000000, resetting with `now = 0` and the default 3 days stores 259200,
strictly earlier than before. -/
theorem update_subscription_moves_backward :
    (get_user_by_id farFutureState 1).map (fun u => u.subscription_until)
        = some 10000000
    ∧ (get_user_by_id (update_subscription farFutureState 1 0 3).2 1).map
          (fun u => u.subscription_until) = some 259200
    ∧ (259200 : Int) < 10000000 := by decide

theorem process_referral_payment_cases (s : DBState) (uid c d : Int) (p : Rat) :
    ((process_referral_payment s uid c d p).1.success = false
      ∧ (process_referral_payment s uid c d p).2 = s)
    ∨ ((process_referral_payment s uid c d p).1.success = true
      ∧ ((process_referral_payment s uid c d p).2 = paidState s uid c d
        ∨ ∃ rid amt, (process_referral_payment s uid c d p).2
            = updateUserById (paidState s uid c d) rid
                (fun v => { v with referral_earnings :=
                  v.referral_earnings + amt }))) := by
  cases hpu : get_user_by_id s uid with
  | none =>
      left
      exact ⟨by simp only [process_referral_payment, hpu]; rfl,
        by simp only [process_referral_payment, hpu]⟩
  | some user =>
      right
      have hu' : s.users.find? (fun v => v.id == uid) = some user := hpu
      have hid : user.id = uid := by simpa using List.find?_some hu'
      have h1 : get_user_by_id (updateUserById s uid
          (fun v => { v with coins := v.coins + c })) uid
          = some { user with coins := user.coins + c } := by
        rw [get_user_by_id_update s uid uid
          (fun v => { v with coins := v.coins + c }) (fun v => rfl), hpu]
        simp [hid]
      simp only [process_referral_payment, hpu, add_coins, extend_subscription,
        add_referral_earnings, h1, paidState]
      refine ⟨?_, ?_⟩
      · repeat' split
        all_goals rfl
      · repeat' split
        all_goals first
          | exact Or.inl rfl
          | exact Or.inr ⟨_, _, rfl⟩

/-- Claim C1: `process_referral_payment` is atomic across its sub-mutations —
every call that reports failure (`success = false`) leaves the whole session
state (in particular the paying user's `coins` and `subscription_until` and
the referrer's `referral_earnings`) exactly as it was before the call. -/
theorem process_referral_payment_atomic_on_failure (s : DBState)
    (uid c d : Int) (p : Rat)
    (hfail : (process_referral_payment s uid c d p).1.success = false) :
    (process_referral_payment s uid c d p).2 = s := by
  rcases process_referral_payment_cases s uid c d p with ⟨_, hstate⟩ | ⟨hsucc, _⟩
  · exact hstate
  · rw [hsucc] at hfail
    cases hfail

/-- Claim C1 witness: processing a payment for the absent user id 1 on the empty
session reports failure and leaves the session unchanged. -/
theorem process_referral_payment_atomic_on_failure_witness :
    (process_referral_payment emptyState 1 5 5 10).1.success = false
    ∧ (process_referral_payment emptyState 1 5 5 10).2 = emptyState :=
  ⟨by decide, process_referral_payment_atomic_on_failure emptyState 1 5 5 10 (by decide)⟩

theorem get_user_after_keyed_update (s : DBState) (uid w : Int)
    (f : DBUser → DBUser) (hf : ∀ v, (f v).id = v.id) (u : DBUser)
    (hu : get_user_by_id s w = some u) :
    get_user_by_id (updateUserById s uid f) w
      = some (if u.id == uid then f u else u) := by
  rw [get_user_by_id_update s uid w f hf, hu]
  rfl

theorem sub_le_after_keyed_update (s : DBState) (uid w : Int)
    (f : DBUser → DBUser) (hf : ∀ v, (f v).id = v.id)
    (hmono : ∀ v, v.subscription_until ≤ (f v).subscription_until)
    (u : DBUser) (hu : get_user_by_id s w = some u) :
    ∃ u', get_user_by_id (updateUserById s uid f) w = some u'
      ∧ u.subscription_until ≤ u'.subscription_until := by
  refine ⟨_, get_user_after_keyed_update s uid w f hf u hu, ?_⟩
  by_cases h : u.id == uid
  · rw [if_pos h]
    exact hmono u
  · rw [if_neg h]

/-- Claim C3 amended: `subscription_until` never moves backward under
`extend_subscription` with a non-negative day count nor under
`process_referral_payment` with a non-negative day count (for every user in
the session), but it is not monotone under `update_subscription`, which
resets the expiry to `now + days` and can move it backward (see the
counterexample). -/
theorem subscription_monotone_extend_and_payment (s : DBState)
    (uid w c d : Int) (p : Rat) (hd : 0 ≤ d) (u : DBUser)
    (hu : get_user_by_id s w = some u) :
    (∃ u', get_user_by_id (extend_subscription s uid d).2 w = some u'
       ∧ u.subscription_until ≤ u'.subscription_until)
    ∧ (∃ u', get_user_by_id (process_referral_payment s uid c d p).2 w = some u'
       ∧ u.subscription_until ≤ u'.subscription_until) := by
  have hdelta : (0 : Int) ≤ timedeltaDays d := by
    unfold timedeltaDays daySeconds
    exact mul_nonneg hd (by norm_num)
  have hsubmono : ∀ v : DBUser, v.subscription_until
      ≤ v.subscription_until + timedeltaDays d := fun v =>
    le_add_of_nonneg_right hdelta
  constructor
  · cases hpu : get_user_by_id s uid with
    | none =>
        refine ⟨u, ?_, le_refl _⟩
        simp only [extend_subscription, hpu]
        exact hu
    | some v0 =>
        simp only [extend_subscription, hpu]
        exact sub_le_after_keyed_update s uid w
          (fun v => { v with subscription_until :=
            v.subscription_until + timedeltaDays d })
          (fun v => rfl) hsubmono u hu
  · rcases process_referral_payment_cases s uid c d p with ⟨_, hstate⟩ | ⟨_, hst⟩
    · rw [hstate]
      exact ⟨u, hu, le_refl _⟩
    · obtain ⟨u1, h1, le1⟩ := sub_le_after_keyed_update s uid w
        (fun v => { v with coins := v.coins + c }) (fun v => rfl)
        (fun v => le_refl _) u hu
      obtain ⟨u2, h2, le2⟩ := sub_le_after_keyed_update _ uid w
        (fun v => { v with subscription_until :=
          v.subscription_until + timedeltaDays d }) (fun v => rfl) hsubmono u1 h1
      rcases hst with hstate | ⟨rid, amt, hstate⟩
      · rw [hstate]
        exact ⟨u2, h2, le_trans le1 le2⟩
      · obtain ⟨u3, h3, le3⟩ := sub_le_after_keyed_update _ rid w
          (fun v => { v with referral_earnings := v.referral_earnings + amt })
          (fun v => rfl) (fun v => le_refl _) u2 h2
        rw [hstate]
        exact ⟨u3, h3, le_trans le1 (le_trans le2 le3)⟩

/-- Claim C3 amended witness: on `sampleState` (expiry 259200), extending by 4
days and processing a 30-day payment both leave the stored expiry at least
as large as before. -/
theorem subscription_monotone_extend_and_payment_witness :
    (0 : Int) ≤ 4
    ∧ (∃ u', get_user_by_id (extend_subscription sampleState 1 4).2 1 = some u'
        ∧ sampleUserA.subscription_until ≤ u'.subscription_until)
    ∧ (∃ u', get_user_by_id (process_referral_payment sampleState 1 50 30 1000).2 1
          = some u'
        ∧ sampleUserA.subscription_until ≤ u'.subscription_until) := by
  have h4 := subscription_monotone_extend_and_payment sampleState 1 1 50 4 1000
    (by decide) sampleUserA (by decide)
  have h30 := subscription_monotone_extend_and_payment sampleState 1 1 50 30 1000
    (by decide) sampleUserA (by decide)
  exact ⟨by decide, h4.1, h30.2⟩

theorem tg_lookup_after_create (s : DBState) (now tg : Int) (hh : String)
    (un ib : Option String) (c : Int)
    (htg : get_user_by_tg_id s tg = none) :
    get_user_by_tg_id (create_user s now tg hh un ib c).2 tg
      = some (create_user s now tg hh un ib c).1 := by
  have htg' : s.users.find? (fun v => v.tg_id == tg) = none := htg
  show ((s.users ++ [(create_user s now tg hh un ib c).1]).find?
    (fun v => v.tg_id == tg)) = _
  rw [find_append_of_none _ htg']
  rw [List.find?_cons_of_pos _ (by simp [create_user])]

theorem tg_lookup_after_increment (s : DBState) (uid tg : Int) :
    ∃ g : DBUser → DBUser, (∀ v, (g v).tg_id = v.tg_id ∧ (g v).id = v.id)
      ∧ get_user_by_tg_id (increment_invited_count s uid).2 tg
          = (get_user_by_tg_id s tg).map g := by
  cases h : get_user_by_id s uid with
  | none =>
      refine ⟨id, fun v => ⟨rfl, rfl⟩, ?_⟩
      simp only [increment_invited_count, h]
      cases get_user_by_tg_id s tg <;> rfl
  | some u =>
      refine ⟨fun v => if v.id == uid
        then { v with invited_count := v.invited_count + 1 } else v, ?_, ?_⟩
      · intro v
        by_cases hv : v.id == uid <;> simp [hv]
      · simp only [increment_invited_count, h]
        exact get_user_by_tg_id_update s uid tg
          (fun v => { v with invited_count := v.invited_count + 1 }) (fun v => rfl)

theorem tg_lookup_after_add_coins (s : DBState) (uid amt tg : Int) :
    ∃ g : DBUser → DBUser, (∀ v, (g v).tg_id = v.tg_id ∧ (g v).id = v.id)
      ∧ get_user_by_tg_id (add_coins s uid amt).2 tg
          = (get_user_by_tg_id s tg).map g := by
  cases h : get_user_by_id s uid with
  | none =>
      refine ⟨id, fun v => ⟨rfl, rfl⟩, ?_⟩
      simp only [add_coins, h]
      cases get_user_by_tg_id s tg <;> rfl
  | some u =>
      refine ⟨fun v => if v.id == uid then { v with coins := v.coins + amt } else v,
        ?_, ?_⟩
      · intro v
        by_cases hv : v.id == uid <;> simp [hv]
      · simp only [add_coins, h]
        exact get_user_by_tg_id_update s uid tg
          (fun v => { v with coins := v.coins + amt }) (fun v => rfl)

/-- Claim C4: registration is idempotent — a second `get_or_create_user` call with
the same external id (whatever its username / inviter-hash arguments)
returns the same internal id as the first call and leaves the session state
exactly as the first call left it: no second row is created and no inviter
side effects run again. -/
theorem get_or_create_user_idempotent (hashFn : Int → String) (s : DBState)
    (now1 now2 tg : Int) (un1 un2 ih1 ih2 : Option String) :
    (get_or_create_user hashFn (get_or_create_user hashFn s now1 tg un1 ih1).2
        now2 tg un2 ih2).1.id
      = (get_or_create_user hashFn s now1 tg un1 ih1).1.id
    ∧ (get_or_create_user hashFn (get_or_create_user hashFn s now1 tg un1 ih1).2
        now2 tg un2 ih2).2
      = (get_or_create_user hashFn s now1 tg un1 ih1).2 := by
  cases htg : get_user_by_tg_id s tg with
  | some u =>
      constructor <;> simp only [get_or_create_user, htg]
  | none =>
      cases hres : resolveInviter s (hashFn tg) ih1 with
      | none =>
          have h1 := tg_lookup_after_create s now1 tg (hashFn tg) un1 none 2 htg
          constructor <;>
            simp only [get_or_create_user, htg, hres, Option.map_none', h1]
      | some inv =>
          have h1 := tg_lookup_after_create s now1 tg (hashFn tg) un1
            (some inv.user_hash) 2 htg
          obtain ⟨g1, hg1, hmap1⟩ := tg_lookup_after_increment
            (create_user s now1 tg (hashFn tg) un1 (some inv.user_hash) 2).2
            inv.id tg
          obtain ⟨g2, hg2, hmap2⟩ := tg_lookup_after_add_coins
            (increment_invited_count
              (create_user s now1 tg (hashFn tg) un1 (some inv.user_hash) 2).2
              inv.id).2 inv.id REFERRAL_BONUS tg
          have hfinal : get_user_by_tg_id
              (add_coins (increment_invited_count
                (create_user s now1 tg (hashFn tg) un1 (some inv.user_hash) 2).2
                inv.id).2 inv.id REFERRAL_BONUS).2 tg
              = some (g2 (g1
                  (create_user s now1 tg (hashFn tg) un1 (some inv.user_hash) 2).1)) := by
            rw [hmap2, hmap1, h1]
            rfl
          constructor <;>
            simp only [get_or_create_user, htg, hres, Option.map_some', hfinal]
          · show (g2 (g1 _)).id = _
            rw [(hg2 _).2, (hg1 _).2]
            rfl

/-- Claim C5: registering a fresh user B with inviter hash equal to the
pre-existing user A's referral hash stores B with
`invited_by_hash = A.user_hash`, increments A's `invited_count` by 1, and
credits A's `coins` with `REFERRAL_BONUS` (1); B itself is created with the
default 2 coins and a 3-day subscription. -/
theorem referral_signup_bonus (hashFn : Int → String) (s : DBState)
    (now tgB : Int) (un : Option String) (A : DBUser)
    (hB : get_user_by_tg_id s tgB = none)
    (hA : get_user_by_hash s A.user_hash = some A)
    (hAid : get_user_by_id s A.id = some A)
    (hne0 : A.user_hash ≠ "")
    (hself : A.user_hash ≠ hashFn tgB)
    (hfresh : A.id ≠ s.nextUserId) :
    get_user_by_id (get_or_create_user hashFn s now tgB un (some A.user_hash)).2 A.id
      = some { A with invited_count := A.invited_count + 1,
                      coins := A.coins + REFERRAL_BONUS }
    ∧ (get_or_create_user hashFn s now tgB un (some A.user_hash)).1.invited_by_hash
      = some A.user_hash
    ∧ get_user_by_tg_id
        (get_or_create_user hashFn s now tgB un (some A.user_hash)).2 tgB
      = some { id := s.nextUserId, tg_id := tgB, username := un,
               registered_at := now, user_hash := hashFn tgB,
               invited_count := 0, invited_by_hash := some A.user_hash,
               coins := 2, referral_earnings := 0, referral_percentage := 5,
               subscription_until := now + timedeltaDays 3 } := by
  have hres : resolveInviter s (hashFn tgB) (some A.user_hash) = some A := by
    simp only [resolveInviter, hA, if_neg hne0, if_neg hself]
  have hA1 : get_user_by_id
      (create_user s now tgB (hashFn tgB) un (some A.user_hash) 2).2 A.id
      = some A := by
    show (s.users ++ [(create_user s now tgB (hashFn tgB) un (some A.user_hash) 2).1]).find?
      (fun v => v.id == A.id) = some A
    exact find_append_of_some _ hAid
  have hs2 : (increment_invited_count
      (create_user s now tgB (hashFn tgB) un (some A.user_hash) 2).2 A.id).2
      = updateUserById (create_user s now tgB (hashFn tgB) un (some A.user_hash) 2).2
          A.id (fun v => { v with invited_count := v.invited_count + 1 }) := by
    simp only [increment_invited_count, hA1]
  have hA2 : get_user_by_id
      (updateUserById (create_user s now tgB (hashFn tgB) un (some A.user_hash) 2).2
        A.id (fun v => { v with invited_count := v.invited_count + 1 })) A.id
      = some { A with invited_count := A.invited_count + 1 } := by
    rw [get_user_after_keyed_update _ A.id A.id
      (fun v => { v with invited_count := v.invited_count + 1 }) (fun v => rfl) A hA1]
    simp
  have hs3 : (add_coins
      (updateUserById (create_user s now tgB (hashFn tgB) un (some A.user_hash) 2).2
        A.id (fun v => { v with invited_count := v.invited_count + 1 }))
      A.id REFERRAL_BONUS).2
      = updateUserById
          (updateUserById (create_user s now tgB (hashFn tgB) un (some A.user_hash) 2).2
            A.id (fun v => { v with invited_count := v.invited_count + 1 }))
          A.id (fun v => { v with coins := v.coins + REFERRAL_BONUS }) := by
    simp only [add_coins, hA2]
  have hbne : ((create_user s now tgB (hashFn tgB) un (some A.user_hash) 2).1.id
      == A.id) = false :=
    beq_eq_false_iff_ne.mpr (Ne.symm hfresh)
  refine ⟨?_, ?_, ?_⟩
  · simp only [get_or_create_user, hB, hres, Option.map_some', hs2, hs3]
    rw [get_user_after_keyed_update _ A.id A.id
      (fun v => { v with coins := v.coins + REFERRAL_BONUS }) (fun v => rfl)
      { A with invited_count := A.invited_count + 1 } hA2]
    simp
  · simp only [get_or_create_user, hB, hres, Option.map_some']
    rfl
  · simp only [get_or_create_user, hB, hres, Option.map_some', hs2, hs3]
    rw [get_user_by_tg_id_update _ A.id tgB
      (fun v => { v with coins := v.coins + REFERRAL_BONUS }) (fun v => rfl)]
    rw [get_user_by_tg_id_update _ A.id tgB
      (fun v => { v with invited_count := v.invited_count + 1 }) (fun v => rfl)]
    rw [tg_lookup_after_create s now tgB (hashFn tgB) un (some A.user_hash) 2 hB]
    simp only [Option.map_some', hbne, Bool.false_eq_true, if_false]
    rfl

/-- Claim C5 witness: registering fresh external id 8 on `sampleState` with
inviter hash `"hA"` leaves user A (`id` 1) with `invited_count` 1 and coins
3, and the returned dict records `invited_by_hash = "hA"`. -/
theorem referral_signup_bonus_witness :
    get_user_by_tg_id sampleState 8 = none
    ∧ get_user_by_id
        (get_or_create_user sampleHashFn sampleState 1000 8 (some "bob")
          (some "hA")).2 1
      = some { sampleUserA with invited_count := 1, coins := 3 }
    ∧ (get_or_create_user sampleHashFn sampleState 1000 8 (some "bob")
        (some "hA")).1.invited_by_hash = some "hA" := by
  have h := referral_signup_bonus sampleHashFn sampleState 1000 8 (some "bob")
    sampleUserA (by decide) (by decide) (by decide) (by decide) (by decide)
    (by decide)
  refine ⟨by decide, ?_, ?_⟩
  · have hx : get_user_by_id
        (get_or_create_user sampleHashFn sampleState 1000 8 (some "bob")
          (some "hA")).2 1
        = some { sampleUserA with
            invited_count := sampleUserA.invited_count + 1,
            coins := sampleUserA.coins + REFERRAL_BONUS } := h.1
    rw [hx]
    decide
  · have hx : (get_or_create_user sampleHashFn sampleState 1000 8 (some "bob")
        (some "hA")).1.invited_by_hash = some sampleUserA.user_hash := h.2.1
    rw [hx]
    decide

/-- Claim C6: for a paying user whose `invited_by_hash` resolves to an existing
referrer (a different row), `process_referral_payment` succeeds, credits the
referrer's `referral_earnings` by exactly
`⌊payment_amount * referral_percentage / 100⌋` (for a non-negative payment
amount and percentage, Python's `int()` truncation coincides with the
floor), reports that bonus and the referrer id in the result, and adds the
given coins and days to the payer. -/
theorem payment_credits_referrer_floor (s : DBState) (uid c d : Int) (p : Rat)
    (u R : DBUser)
    (hu : get_user_by_id s uid = some u)
    (hinv : u.invited_by_hash = some R.user_hash)
    (hne0 : R.user_hash ≠ "")
    (hR : get_user_by_hash s R.user_hash = some R)
    (hRid : get_user_by_id s R.id = some R)
    (hdistinct : R.id ≠ uid)
    (hp : 0 ≤ p) (hpct : 0 ≤ R.referral_percentage) :
    (process_referral_payment s uid c d p).1.success = true
    ∧ (process_referral_payment s uid c d p).1.referrer_bonus
        = ⌊p * (R.referral_percentage : Rat) / 100⌋
    ∧ (process_referral_payment s uid c d p).1.referrer_id = some R.id
    ∧ get_user_by_id (process_referral_payment s uid c d p).2 R.id
        = some { R with referral_earnings :=
            R.referral_earnings + ⌊p * (R.referral_percentage : Rat) / 100⌋ }
    ∧ get_user_by_id (process_referral_payment s uid c d p).2 uid
        = some { u with coins := u.coins + c,
                        subscription_until :=
                          u.subscription_until + timedeltaDays d } := by
  have hu' : s.users.find? (fun v => v.id == uid) = some u := hu
  have hid : u.id = uid := by simpa using List.find?_some hu'
  have hbne : (R.id == uid) = false := beq_eq_false_iff_ne.mpr hdistinct
  have hfloor : pyTrunc (p * (R.referral_percentage : Rat) / 100)
      = ⌊p * (R.referral_percentage : Rat) / 100⌋ :=
    pyTrunc_eq_floor _ (div_nonneg
      (mul_nonneg hp (Int.cast_nonneg.mpr hpct)) (by norm_num))
  have h1 : get_user_by_id (updateUserById s uid
      (fun v => { v with coins := v.coins + c })) uid
      = some { u with coins := u.coins + c } := by
    rw [get_user_by_id_update s uid uid
      (fun v => { v with coins := v.coins + c }) (fun v => rfl), hu]
    simp [hid]
  have hhash : get_user_by_hash
      (updateUserById (updateUserById s uid (fun v => { v with coins := v.coins + c }))
        uid (fun v => { v with subscription_until :=
          v.subscription_until + timedeltaDays d })) R.user_hash = some R := by
    rw [get_user_by_hash_update _ uid R.user_hash
      (fun v => { v with subscription_until :=
        v.subscription_until + timedeltaDays d }) (fun v => rfl)]
    rw [get_user_by_hash_update _ uid R.user_hash
      (fun v => { v with coins := v.coins + c }) (fun v => rfl)]
    rw [hR]
    simp [hbne, hdistinct]
  have hRid2 : get_user_by_id
      (updateUserById (updateUserById s uid (fun v => { v with coins := v.coins + c }))
        uid (fun v => { v with subscription_until :=
          v.subscription_until + timedeltaDays d })) R.id = some R := by
    rw [get_user_by_id_update _ uid R.id
      (fun v => { v with subscription_until :=
        v.subscription_until + timedeltaDays d }) (fun v => rfl)]
    rw [get_user_by_id_update _ uid R.id
      (fun v => { v with coins := v.coins + c }) (fun v => rfl)]
    rw [hRid]
    simp [hbne, hdistinct]
  have hu2 : get_user_by_id
      (updateUserById (updateUserById s uid (fun v => { v with coins := v.coins + c }))
        uid (fun v => { v with subscription_until :=
          v.subscription_until + timedeltaDays d })) uid
      = some { u with coins := u.coins + c,
                      subscription_until :=
                        u.subscription_until + timedeltaDays d } := by
    rw [get_user_by_id_update _ uid uid
      (fun v => { v with subscription_until :=
        v.subscription_until + timedeltaDays d }) (fun v => rfl), h1]
    simp [hid]
  simp only [process_referral_payment, hu, add_coins, extend_subscription, h1,
    hinv, if_neg hne0, hhash, add_referral_earnings, hRid2]
  refine ⟨trivial, hfloor, trivial, ?_, ?_⟩
  · rw [get_user_by_id_update _ R.id R.id
      (fun v => { v with referral_earnings :=
        v.referral_earnings + pyTrunc (p * (R.referral_percentage : Rat) / 100) })
      (fun v => rfl), hRid2]
    simp [hfloor]
  · rw [get_user_by_id_update _ R.id uid
      (fun v => { v with referral_earnings :=
        v.referral_earnings + pyTrunc (p * (R.referral_percentage : Rat) / 100) })
      (fun v => rfl), hu2]
    have hne3 : u.id ≠ R.id := by
      rw [hid]
      exact Ne.symm hdistinct
    simp [hne3, hinv]

/-- Claim C6 witness: the spec's concrete example — `process(U, coins=50, days=30,
amount=1000)` for payer `payerU` invited by `referrerR` with
`referral_percentage = 5` succeeds, pays the referrer exactly 50
(`⌊1000 * 5 / 100⌋`), adds 50 coins to the payer and extends the payer's
subscription by 30 days. -/
theorem payment_credits_referrer_floor_witness :
    (process_referral_payment payState 2 50 30 1000).1.success = true
    ∧ (process_referral_payment payState 2 50 30 1000).1.referrer_bonus = 50
    ∧ get_user_by_id (process_referral_payment payState 2 50 30 1000).2 1
        = some { referrerR with referral_earnings := 50 }
    ∧ get_user_by_id (process_referral_payment payState 2 50 30 1000).2 2
        = some { payerU with
                 coins := 52
                 subscription_until := 359200 + 30 * 86400 } := by
  have h := payment_credits_referrer_floor payState 2 50 30 1000 payerU referrerR
    (by decide) (by decide) (by decide) (by decide) (by decide) (by decide)
    (by norm_num) (by decide)
  have hfl : ⌊(1000 : Rat) * (referrerR.referral_percentage : Rat) / 100⌋
      = (50 : Int) := by
    norm_num [referrerR]
  refine ⟨h.1, ?_, ?_, ?_⟩
  · rw [h.2.1, hfl]
  · have hx : get_user_by_id (process_referral_payment payState 2 50 30 1000).2 1
        = some { referrerR with referral_earnings := referrerR.referral_earnings
            + ⌊(1000 : Rat) * (referrerR.referral_percentage : Rat) / 100⌋ } :=
      h.2.2.2.1
    rw [hx, hfl]
    decide
  · rw [h.2.2.2.2]
    decide

/-- Claim C10: `get_usage_stats` is computed only over usage records inside the
window (records with `used_at < now - days·86400` can be removed from the
session without changing any field of the result), `average_per_usage` is 0
when `total_usages` is 0 (the division is guarded by the list-emptiness
check, so an empty window never divides by the record count), and whenever
records exist the average times the record count gives back the coin total. -/
theorem usage_stats_window_guarded (s : DBState) (uid days now : Int) :
    get_usage_stats s uid days now
      = get_usage_stats
          { s with usages :=
              s.usages.filter (fun r => now - timedeltaDays days ≤ r.used_at) }
          uid days now
    ∧ ((get_usage_stats s uid days now).total_usages = 0 →
        (get_usage_stats s uid days now).average_per_usage = 0)
    ∧ (get_usage_stats s uid days now).average_per_usage
        * ((get_usage_stats s uid days now).total_usages : Rat)
      = ((get_usage_stats s uid days now).total_coins_used : Rat) := by
  have key : (s.usages.filter
        (fun r => decide (now - timedeltaDays days ≤ r.used_at))).filter
        (fun r => r.user_id == uid && decide (now - timedeltaDays days ≤ r.used_at))
      = s.usages.filter
        (fun r => r.user_id == uid && decide (now - timedeltaDays days ≤ r.used_at)) := by
    rw [List.filter_filter]
    apply List.filter_congr
    intro a _
    rw [Bool.and_assoc, Bool.and_self]
  refine ⟨?_, ?_, ?_⟩
  · simp only [get_usage_stats]
    rw [key]
  · intro h0
    simp only [get_usage_stats] at h0 ⊢
    have hnil := List.length_eq_zero.mp h0
    rw [hnil]
    rfl
  · simp only [get_usage_stats]
    cases hemp : (s.usages.filter
        (fun r => r.user_id == uid
          && decide (now - timedeltaDays days ≤ r.used_at))).isEmpty
    · have hne : s.usages.filter
          (fun r => r.user_id == uid
            && decide (now - timedeltaDays days ≤ r.used_at)) ≠ [] := by
        intro hh
        rw [hh] at hemp
        cases hemp
      have hlen : (s.usages.filter
          (fun r => r.user_id == uid
            && decide (now - timedeltaDays days ≤ r.used_at))).length ≠ 0 := by
        simpa [List.length_eq_zero] using hne
      have hcast : (((s.usages.filter
          (fun r => r.user_id == uid
            && decide (now - timedeltaDays days ≤ r.used_at))).length : Nat) : Rat)
          ≠ 0 := Nat.cast_ne_zero.mpr hlen
      simp only [hemp, Bool.false_eq_true, if_false]
      exact div_mul_cancel₀ _ hcast
    · have hnil := List.isEmpty_iff.mp hemp
      rw [hnil]
      simp

/-- Claim C10 witness: on `usageState`, whose only usage record (at time 0) lies
before the 7-day window ending at time 1000000, the stats report zero
usages and an average of 0 without error. -/
theorem usage_stats_window_guarded_witness :
    (get_usage_stats usageState 1 7 1000000).total_usages = 0
    ∧ (get_usage_stats usageState 1 7 1000000).average_per_usage = 0 := by
  have h := usage_stats_window_guarded usageState 1 7 1000000
  exact ⟨by decide, h.2.1 (by decide)⟩
